import Mathlib

/-!
Shallow embedding of the MCPQL query-safety gate.

JavaScript strings are modelled as `List Char` (`Str`). JS `toUpperCase`,
`trim` and `\s` are modelled with the ASCII behaviour of `Char.toUpper` and
`Char.isWhitespace`; all inputs of interest are ASCII. The `mssql` connection
pool is modelled as an oracle (`Pool`) mapping a statement to either a result
or an error message (`Except`); every function that touches the pool also
returns the ordered list of database calls it issued, so "the database handle
is never invoked" is the statement that this trace is empty. The audit log is
modelled as the list of events a call appends.
-/

namespace MCPQL

abbrev Str := List Char

/-- JS `String.prototype.toUpperCase` restricted to ASCII. -/
def upper (l : Str) : Str := l.map Char.toUpper

/-- JS `String.prototype.trim`: drop whitespace at both ends. -/
def trimL (l : Str) : Str :=
  ((l.dropWhile Char.isWhitespace).reverse.dropWhile Char.isWhitespace).reverse

/-- Boolean prefix test on char lists (JS `String.prototype.startsWith`). -/
def prefixB : Str → Str → Bool
  | [], _ => true
  | _ :: _, [] => false
  | a :: as, b :: bs => a == b && prefixB as bs

/-- JS `\w` word characters `[A-Za-z0-9_]`. -/
def isWordChar (c : Char) : Bool := c.isAlphanum || c == '_'

/-- Risk levels of `securityUtils.analyzeQuery` ('LOW' | 'MEDIUM' | 'HIGH'). -/
inductive RiskLevel where
  | LOW
  | MEDIUM
  | HIGH
deriving DecidableEq

def RiskLevel.str : RiskLevel → Str
  | .LOW => "LOW".data
  | .MEDIUM => "MEDIUM".data
  | .HIGH => "HIGH".data

/-- Source list `securityUtils.WRITE_OPERATIONS`. -/
def WRITE_OPERATIONS : List Str :=
  ["INSERT".data, "UPDATE".data, "DELETE".data, "ALTER".data, "DROP".data,
   "TRUNCATE".data, "CREATE".data, "MERGE".data, "BULK".data, "EXEC".data,
   "EXECUTE".data]

/-- Source list `securityUtils.READ_OPERATIONS`. -/
def READ_OPERATIONS : List Str :=
  ["SELECT".data, "SHOW".data, "DESCRIBE".data, "DESC".data, "EXPLAIN".data,
   "WITH".data]

/-- Result record of `securityUtils.analyzeQuery`. -/
structure Analysis where
  requiresConfirmation : Bool
  operation : Str
  riskLevel : RiskLevel
  reason : Str
deriving DecidableEq

/-- Source function `securityUtils.analyzeQuery`: normalizes with
`sql.trim().toUpperCase()`,
takes the first whitespace-delimited token, and classifies by
`cleanSql.startsWith(op)` over the write then the read keyword lists, with the
risk level chosen by exact first-token comparison inside the write branch.
(`cleanSql.split(/\s+/)[0]` on a trimmed string is its maximal leading run of
non-whitespace characters.) -/
def analyzeQuery (sql : Str) : Analysis :=
  let cleanSql := upper (trimL sql)
  let firstKeyword := cleanSql.takeWhile (fun c => !c.isWhitespace)
  if WRITE_OPERATIONS.any (fun op => prefixB op cleanSql) then
    if firstKeyword = "DELETE".data ∨ firstKeyword = "DROP".data ∨
        firstKeyword = "TRUNCATE".data then
      { requiresConfirmation := true, operation := firstKeyword,
        riskLevel := .HIGH,
        reason := "High-risk ".data ++ firstKeyword ++
          " operation that can permanently remove data".data }
    else if firstKeyword = "ALTER".data then
      { requiresConfirmation := true, operation := firstKeyword,
        riskLevel := .HIGH,
        reason := "Schema modification operation that can affect database structure".data }
    else if firstKeyword = "UPDATE".data then
      { requiresConfirmation := true, operation := firstKeyword,
        riskLevel := .MEDIUM,
        reason := "Data modification operation that updates existing records".data }
    else if firstKeyword = "INSERT".data then
      { requiresConfirmation := true, operation := firstKeyword,
        riskLevel := .LOW,
        reason := "Data insertion operation that adds new records".data }
    else
      { requiresConfirmation := true, operation := firstKeyword,
        riskLevel := .MEDIUM,
        reason := "Detected ".data ++ firstKeyword ++
          " operation which modifies data".data }
  else if READ_OPERATIONS.any (fun op => prefixB op cleanSql) then
    { requiresConfirmation := false, operation := firstKeyword,
      riskLevel := .LOW,
      reason := "Read-only ".data ++ firstKeyword ++ " operation".data }
  else
    { requiresConfirmation := true,
      operation := if firstKeyword = [] then "UNKNOWN".data else firstKeyword,
      riskLevel := .HIGH,
      reason := "Unknown SQL operation - requires confirmation for safety".data }

/-- Wrapper applying `analyzeQuery` to a Lean string literal. -/
def analyzeQueryS (s : String) : Analysis := analyzeQuery s.data

/-! ### security.ts: flag configuration and permission checks -/

/-- The two feature flags of `SECURITY_CONFIG`, parsed from
`DB_ALLOW_MODIFICATIONS` / `DB_ALLOW_STORED_PROCEDURES` (both default false);
the parsed state is taken as input here. -/
structure SecurityConfig where
  ALLOW_MODIFICATIONS : Bool
  ALLOW_STORED_PROCEDURES : Bool
deriving DecidableEq

/-- Source list `security.MODIFICATION_KEYWORDS`. -/
def MODIFICATION_KEYWORDS : List Str :=
  ["INSERT".data, "UPDATE".data, "DELETE".data, "DROP".data, "CREATE".data,
   "ALTER".data, "TRUNCATE".data, "MERGE".data, "BULK".data, "EXEC".data,
   "EXECUTE".data]

/-- One line of the single-line-comment removal (JS global multiline regex
replace): drop everything from the first double dash to the end of the line. -/
def stripOneLine : Str → Str
  | '-' :: '-' :: _ => []
  | c :: r => c :: stripOneLine r
  | [] => []

/-- Split on newline characters (every `\n` separates two lines). -/
def splitNl : Str → List Str
  | [] => [[]]
  | '\n' :: r => [] :: splitNl r
  | c :: r =>
    match splitNl r with
    | h :: t => (c :: h) :: t
    | [] => [[c]]

/-- Single-line-comment removal: applied line by line (the newline itself is
not matched by the dot and is kept). -/
def stripLineComments (l : Str) : Str :=
  List.intercalate ['\n'] ((splitNl l).map stripOneLine)

/-- Text after the first `*/`, if any. -/
def dropToClose : Str → Option Str
  | '*' :: '/' :: r => some r
  | _ :: r => dropToClose r
  | [] => none

/-- Fuelled worker for `query.replace(/\/\*[\s\S]*?\*\//g, '')`: each `/*` is
removed together with the text up to the first following `*/`; a `/*` with no
closing `*/` matches nothing and the remaining text is kept verbatim. -/
def sbAux : Nat → Str → Str
  | 0, l => l
  | Nat.succ f, l =>
    match l with
    | [] => []
    | '/' :: '*' :: rest =>
      match dropToClose rest with
      | some r2 => sbAux f r2
      | none => l
    | c :: r => c :: sbAux f r

/-- Block-comment removal (the lazy global block-comment regex replace). -/
def stripBlockComments (l : Str) : Str := sbAux l.length l

/-- Whitespace collapsing (the global regex replace): each whitespace run
becomes one space. -/
def collapseWs : Str → Str
  | [] => []
  | c :: r =>
    if c.isWhitespace then
      match r with
      | c2 :: r2 =>
        if c2.isWhitespace then collapseWs (c2 :: r2)
        else ' ' :: collapseWs (c2 :: r2)
      | [] => [' ']
    else c :: collapseWs r

/-- The cleaned query built inside `containsModificationOperations`: strip
single-line comments, strip block comments, collapse whitespace, trim,
upper-case. -/
def cleanQuery (q : Str) : Str :=
  upper (trimL (collapseWs (stripBlockComments (stripLineComments q))))

/-- Test for `new RegExp("\\b" + kw + "\\b", 'i')` on a text: `kw` occurs at a
position with no word character immediately before or after it. -/
def hasWordBoundedAux (kw : Str) (prevIsWord : Bool) : Str → Bool
  | [] => false
  | c :: r =>
    (!prevIsWord && prefixB kw (c :: r) &&
      (match (c :: r).drop kw.length with
       | [] => true
       | c2 :: _ => !isWordChar c2)) ||
    hasWordBoundedAux kw (isWordChar c) r

def hasWordBounded (kw : Str) (l : Str) : Bool := hasWordBoundedAux kw false l

/-- Source function `security.containsModificationOperations`: falsy (empty)
queries are
`false`; otherwise some modification keyword occurs word-bounded in the
cleaned query. -/
def containsModificationOperations (q : Str) : Bool :=
  if q = [] then false
  else MODIFICATION_KEYWORDS.any (fun kw => hasWordBounded kw (cleanQuery q))

/-- Result shape of the `validate*Permission` helpers. -/
structure Permission where
  allowed : Bool
  message : Option Str
deriving DecidableEq

def boolStr (b : Bool) : Str := if b then "true".data else "false".data

/-- Text of the modification-blocked message before the flag assignment. -/
def modBlockedMsgPre (operation : Str) : Str :=
  "[X] OPERATION BLOCKED: Database modifications are disabled for security.\n\n[*] REQUESTED OPERATION: ".data ++
  operation ++
  "\n\n[+] TO ENABLE MODIFICATIONS:\nConfigure the environment variable: ".data

/-- Text of the modification-blocked message after the flag assignment. -/
def modBlockedMsgPost (cfg : SecurityConfig) : Str :=
  "\n\n[!] WARNING: Only enable modifications if you are sure it is safe to do so.\nIn production environments, keep this setting as 'false' to prevent accidental changes.\n\n[#] CURRENT CONFIGURATION:\n- DB_ALLOW_MODIFICATIONS: ".data ++
  boolStr cfg.ALLOW_MODIFICATIONS ++
  "\n- DB_ALLOW_STORED_PROCEDURES: ".data ++
  boolStr cfg.ALLOW_STORED_PROCEDURES

/-- Message of `validateModificationPermission` when blocked; the
`DB_ALLOW_MODIFICATIONS=true` assignment to set is a stand-alone literal
piece of the concatenation. -/
def modBlockedMsg (cfg : SecurityConfig) (operation : Str) : Str :=
  modBlockedMsgPre operation ++ "DB_ALLOW_MODIFICATIONS=true".data ++
  modBlockedMsgPost cfg

/-- Source function `security.validateModificationPermission`. -/
def validateModificationPermission (cfg : SecurityConfig) (operation : Str) :
    Permission :=
  if cfg.ALLOW_MODIFICATIONS = false then
    { allowed := false, message := some (modBlockedMsg cfg operation) }
  else { allowed := true, message := none }

/-- Text of the stored-procedure-blocked message before the flag
assignment. -/
def spBlockedMsgPre (spName : Str) : Str :=
  "[X] EXECUTION BLOCKED: Stored procedure execution is disabled for security.\n\n[*] REQUESTED STORED PROCEDURE: ".data ++
  spName ++
  "\n\n[+] TO ENABLE STORED PROCEDURES:\nConfigure the environment variable: ".data

/-- Text of the stored-procedure-blocked message after the flag
assignment. -/
def spBlockedMsgPost (cfg : SecurityConfig) : Str :=
  "\n\n[!] WARNING: Stored procedures can perform database modifications.\nOnly enable this function if you are sure it is safe to do so.\n\n[#] CURRENT CONFIGURATION:\n- DB_ALLOW_MODIFICATIONS: ".data ++
  boolStr cfg.ALLOW_MODIFICATIONS ++
  "\n- DB_ALLOW_STORED_PROCEDURES: ".data ++
  boolStr cfg.ALLOW_STORED_PROCEDURES ++
  "\n\n[i] SAFE ALTERNATIVE:\nYou can use 'mcp_sp_structure' to analyze the stored procedure without executing it.".data

/-- Message of `validateStoredProcedurePermission` when blocked. -/
def spBlockedMsg (cfg : SecurityConfig) (spName : Str) : Str :=
  spBlockedMsgPre spName ++ "DB_ALLOW_STORED_PROCEDURES=true".data ++
  spBlockedMsgPost cfg

/-- Source function `security.validateStoredProcedurePermission`. -/
def validateStoredProcedurePermission (cfg : SecurityConfig) (spName : Str) :
    Permission :=
  if cfg.ALLOW_STORED_PROCEDURES = false then
    { allowed := false, message := some (spBlockedMsg cfg spName) }
  else { allowed := true, message := none }

/-- Source function `security.validateQueryPermission`. -/
def validateQueryPermission (cfg : SecurityConfig) (query : Str) : Permission :=
  if query = [] then
    { allowed := false, message := some "Empty or invalid query".data }
  else if containsModificationOperations query then
    validateModificationPermission cfg
      ("SQL Query: ".data ++ query.take 100 ++ "...".data)
  else { allowed := true, message := none }

/-! ### Backtracking matcher for the concrete regexes of `estimateImpact`

A matcher maps an input to the ordered list of `(consumed, rest)` ways a
pattern piece can match at the start of the input, first element first in JS
backtracking preference order (greedy pieces longest first, lazy pieces
shortest first, an optional piece present first, alternation in source
order); sequencing enumerates the left piece's choices outermost, which is
exactly regex backtracking. The overall regex match is the head of the list. -/

abbrev Alt := List (Str × Str)

/-- An optional single character (`x?` for a literal `x`). -/
def mOptChar (c : Char) (cs : Str) : Alt :=
  match cs with
  | c2 :: r => if c2 == c then [([c2], r), ([], cs)] else [([], cs)]
  | [] => [([], cs)]

/-- A case-insensitive literal. -/
def mLit (pat : Str) (cs : Str) : Alt :=
  if upper (cs.take pat.length) == upper pat then
    [(cs.take pat.length, cs.drop pat.length)]
  else []

/-- Greedy `\w+`: the nonempty prefixes of the leading word-character run,
longest first. -/
def mWordPlus (cs : Str) : Alt :=
  let w := cs.takeWhile isWordChar
  (List.range w.length).map
    (fun i => (w.take (w.length - i), cs.drop (w.length - i)))

/-- Greedy `\s+`: the nonempty prefixes of the leading whitespace run,
longest first. -/
def mWsPlus (cs : Str) : Alt :=
  let w := cs.takeWhile Char.isWhitespace
  (List.range w.length).map
    (fun i => (w.take (w.length - i), cs.drop (w.length - i)))

/-- Greedy dot-star (the dot does not match a newline): prefixes of the
leading newline-free run, longest first, the empty match last. -/
def mDotStarGreedy (cs : Str) : Alt :=
  let w := cs.takeWhile (fun c => !(c == '\n'))
  (List.range (w.length + 1)).map
    (fun i => (w.take (w.length - i), cs.drop (w.length - i)))

/-- Lazy dot-star: same prefixes, shortest first. -/
def mDotStarLazy (cs : Str) : Alt :=
  let w := cs.takeWhile (fun c => !(c == '\n'))
  (List.range (w.length + 1)).map (fun i => (w.take i, cs.drop i))

/-- Sequencing of two matchers in backtracking order. -/
def mSeq (m1 m2 : Str → Alt) (cs : Str) : Alt :=
  (m1 cs).flatMap (fun p => (m2 p.2).map (fun q => (p.1 ++ q.1, q.2)))

/-- The capture of the table-name regex: optional opening bracket, a word run,
optional closing bracket, optional dot, optional opening bracket, a word run,
optional closing bracket. -/
def mTableName : Str → Alt :=
  mSeq (mOptChar '[')
    (mSeq mWordPlus
      (mSeq (mOptChar ']')
        (mSeq (mOptChar '.')
          (mSeq (mOptChar '[') (mSeq mWordPlus (mOptChar ']'))))))

/-- The keyword alternation FROM | UPDATE | INTO | JOIN, in source order,
case-insensitive. -/
def mTableKw (cs : Str) : Alt :=
  mLit "FROM".data cs ++ mLit "UPDATE".data cs ++ mLit "INTO".data cs ++
  mLit "JOIN".data cs

/-- One full match of the table-extraction regex at the current position:
keyword, mandatory whitespace, table name. -/
def fullTableMatch : Str → Alt :=
  mSeq mTableKw (mSeq mWsPlus mTableName)

/-- Global scan of the table-extraction regex: leftmost matches, each search
resuming after the previous match, as a JS global `match` does. -/
def scanTablesAux : Nat → Str → List Str
  | 0, _ => []
  | Nat.succ f, cs =>
    match (fullTableMatch cs).head? with
    | some pr => pr.1 :: scanTablesAux f pr.2
    | none =>
      match cs with
      | [] => []
      | _ :: r => scanTablesAux f r

/-- Model of `sql.match(...)` with the global table regex: the list of full
matches. -/
def tableMatches (sql : Str) : List Str := scanTablesAux sql.length sql

/-- One keyword's case of the per-match anchored replace that deletes the
leading keyword and the following whitespace run: `none` when this keyword
(with at least one whitespace after it) is not the prefix. -/
def stripLeadKwOne (kw m : Str) : Option Str :=
  if upper (m.take kw.length) == upper kw then
    let rest := m.drop kw.length
    let ws := rest.takeWhile Char.isWhitespace
    if ws.isEmpty then none else some (rest.drop ws.length)
  else none

/-- Model of `match.replace(...)` deleting the leading FROM/UPDATE/INTO/JOIN
keyword
and its trailing whitespace (at most one keyword can match; unmatched input is
returned unchanged). -/
def stripLeadKw (m : Str) : Str :=
  match stripLeadKwOne "FROM".data m with
  | some r => r
  | none =>
    match stripLeadKwOne "UPDATE".data m with
    | some r => r
    | none =>
      match stripLeadKwOne "INTO".data m with
      | some r => r
      | none =>
        match stripLeadKwOne "JOIN".data m with
        | some r => r
        | none => m

/-- The `affectedTables` accumulation of `estimateImpact`: each match is
stripped of its keyword, trimmed, and pushed unless already present. -/
def extractAffectedTables (sql : Str) : List Str :=
  (tableMatches sql).foldl
    (fun acc mm =>
      let tn := trimL (stripLeadKw mm)
      if tn ∈ acc then acc else acc ++ [tn]) []

/-- The group-2 part of the UPDATE row-estimate regex: an optional greedy
`\s+WHERE.*`, present first, absent second. -/
def mGroup2 (cs : Str) : Alt :=
  ((mWsPlus cs).flatMap (fun a =>
    (mLit "WHERE".data a.2).flatMap (fun b =>
      (mDotStarGreedy b.2).map (fun c => (a.1 ++ b.1 ++ c.1, c.2))))) ++
  [([], cs)]

/-- The UPDATE row-estimate regex applied at the current position, returning
`(group1, group2)`: UPDATE, whitespace, captured table name, whitespace, SET,
lazy dot-star, optional WHERE group, end of input. -/
def updAt (cs : Str) : List (Str × Str) :=
  (mLit "UPDATE".data cs).flatMap (fun p1 =>
    (mWsPlus p1.2).flatMap (fun p2 =>
      (mTableName p2.2).flatMap (fun pc =>
        (mWsPlus pc.2).flatMap (fun p3 =>
          (mLit "SET".data p3.2).flatMap (fun p4 =>
            (mDotStarLazy p4.2).flatMap (fun p5 =>
              (mGroup2 p5.2).flatMap (fun pg =>
                if pg.2.isEmpty then [(pc.1, pg.1)] else [])))))))

/-- Unanchored search for the UPDATE row-estimate regex: leftmost position
whose first backtracking success wins. -/
def updSearchAux : Nat → Str → Option (Str × Str)
  | 0, _ => none
  | Nat.succ f, cs =>
    match (updAt cs).head? with
    | some g => some g
    | none =>
      match cs with
      | [] => none
      | _ :: r => updSearchAux f r

/-- Model of `sql.match(...)` with the UPDATE row-estimate regex: the
captured table
name and WHERE clause (the latter `''` when the group is absent). -/
def jsUpdateMatch (sql : Str) : Option (Str × Str) :=
  updSearchAux (sql.length + 1) sql

/-- The anchored case-insensitive replace turning a leading `DELETE` plus
whitespace into the SELECT COUNT prefix. When the raw text does not start
with `DELETE` followed by whitespace (for example because of leading
whitespace) nothing matches and the input is returned unchanged. -/
def jsReplaceDeleteAnchor (sql : Str) : Str :=
  if upper (sql.take 6) == "DELETE".data then
    let rest := sql.drop 6
    let ws := rest.takeWhile Char.isWhitespace
    if ws.isEmpty then sql
    else "SELECT COUNT(*) AS estimated_rows ".data ++ rest.drop ws.length
  else sql

/-! ### The database handle, its call trace, and the impact estimator -/

/-- What a call on the `mssql` pool yields, already coalesced the way the
code reads it: `estRows` is `result.recordset[0]?.estimated_rows || 0` and
`rowsAffected0` is `result.rowsAffected?.[0] || 0`. -/
structure QueryRes where
  estRows : Nat
  rowsAffected0 : Nat
deriving DecidableEq

/-- One invocation of the database handle: a text query or a stored-procedure
execution with its input parameters. -/
inductive DbCall where
  | q (sql : Str)
  | x (sp : Str) (ps : List (Str × Str))
deriving DecidableEq

/-- The database handle as an oracle: an error value models a thrown
database exception, carrying `error.message`. -/
structure Pool where
  runQuery : Str → Except Str QueryRes
  runExec : Str → List (Str × Str) → Except Str QueryRes

/-- Result record of `securityUtils.estimateImpact`. -/
structure Impact where
  estimatedRows : Nat
  affectedTables : List Str
  warning : Option Str
deriving DecidableEq

/-- Source function `securityUtils.estimateImpact`: extracts table names
textually, and for a
trimmed-upper text starting with DELETE or UPDATE runs the rewritten
SELECT COUNT query; a failing count query degrades to `estimatedRows = 0`
with an unavailability warning and the tables preserved; otherwise rows above
1000 raise only an advisory warning. Every branch also reports the list of
queries it sent to the pool. (The outer `try` of the source catches nothing
in this model because no modelled step throws.) -/
def estimateImpact (sql : Str) (pool : Pool) : Impact × List DbCall :=
  let cleanSql := upper (trimL sql)
  let affectedTables := extractAffectedTables sql
  if prefixB "DELETE".data cleanSql || prefixB "UPDATE".data cleanSql then
    let countQuery : Str :=
      if prefixB "DELETE".data cleanSql then jsReplaceDeleteAnchor sql
      else
        match jsUpdateMatch sql with
        | some pr =>
          "SELECT COUNT(*) AS estimated_rows FROM ".data ++ pr.1 ++ pr.2
        | none => []
    if countQuery.isEmpty then
      ({ estimatedRows := 0, affectedTables := affectedTables,
         warning := none }, [])
    else
      match pool.runQuery countQuery with
      | .error _ =>
        ({ estimatedRows := 0, affectedTables := affectedTables,
           warning := some "Could not estimate the number of affected rows".data },
         [.q countQuery])
      | .ok r =>
        ({ estimatedRows := r.estRows, affectedTables := affectedTables,
           warning :=
             if r.estRows > 1000 then
               some "Large number of rows may be affected".data
             else none },
         [.q countQuery])
  else
    ({ estimatedRows := 0, affectedTables := affectedTables, warning := none },
     [])

/-! ### Pending-operation store (securityUtils) -/

/-- An entry of the `pendingOperations` map; `timestamp` is epoch
milliseconds. -/
structure PendingOp where
  sql : Str
  operation : Str
  riskLevel : Str
  timestamp : Nat
  estimatedRows : Nat
  affectedTables : List Str
  spName : Option Str
  params : Option (List (Str × Str))
deriving DecidableEq

/-- The JS `Map` keyed by token, as an insertion-ordered association list. -/
abbrev Store := List (Str × PendingOp)

def mapGet (k : Str) (m : Store) : Option PendingOp :=
  (m.find? (fun p => p.1 == k)).map (fun p => p.2)

def mapDelete (k : Str) (m : Store) : Store :=
  m.filter (fun p => !(p.1 == k))

def mapSet (k : Str) (v : PendingOp) (m : Store) : Store :=
  if m.any (fun p => p.1 == k) then
    m.map (fun p => if p.1 == k then (k, v) else p)
  else m ++ [(k, v)]

/-- Five minutes in milliseconds, the token TTL. -/
def TOKEN_MAX_AGE : Nat := 5 * 60 * 1000

/-- Source function `cleanupExpiredTokens`: delete every entry whose age
exceeds the TTL. -/
def cleanupExpiredTokens (now : Nat) (m : Store) : Store :=
  m.filter (fun p => !((now : Int) - (p.2.timestamp : Int) > TOKEN_MAX_AGE))

/-- Source function `storePendingOperation`: insert the operation stamped with
the current
time, then sweep expired entries. -/
def storePendingOperation (now : Nat) (tok : Str) (op : PendingOp)
    (m : Store) : Store :=
  cleanupExpiredTokens now (mapSet tok { op with timestamp := now } m)

/-- Source function `getPendingOperation`: a missing token is `none`; a
present token older
than the TTL is deleted and `none`; otherwise the entry is returned and the
store unchanged. -/
def getPendingOperation (now : Nat) (tok : Str) (m : Store) :
    Option PendingOp × Store :=
  match mapGet tok m with
  | none => (none, m)
  | some op =>
    if (now : Int) - (op.timestamp : Int) > TOKEN_MAX_AGE then
      (none, mapDelete tok m)
    else (some op, m)

/-- Source function `removePendingOperation`: unconditional delete. -/
def removePendingOperation (tok : Str) (m : Store) : Store := mapDelete tok m

/-! ### Audit log (securityUtils.logSecurityEvent) -/

inductive OpResult where
  | SUCCESS
  | FAILED
  | CANCELLED
deriving DecidableEq

/-- One record appended to `security_audit.log`. -/
structure AuditEvent where
  timestamp : Nat
  operation : Str
  sql : Str
  riskLevel : Str
  userConfirmed : Bool
  estimatedRows : Option Nat
  affectedTables : Option (List Str)
  result : Option OpResult
  errorMsg : Option Str
deriving DecidableEq

/-- Source function `logSecurityEvent` truncates the statement to 500
characters; the write
itself is fire-and-forget (a failed file append is swallowed), so the model
is the record as appended. -/
def logSecurityEvent (e : AuditEvent) : AuditEvent :=
  { e with sql := e.sql.take 500 }

/-! ### Tool results and user-facing messages -/

/-- Result union `ToolResult`: success with data (and, for the confirm tool, a
message), or
failure with an error string. -/
inductive ToolRes where
  | ok (data : QueryRes) (message : Option Str)
  | err (msg : Str)
deriving DecidableEq

def ToolRes.isErr : ToolRes → Bool
  | .err _ => true
  | .ok _ _ => false

def riskEmoji : RiskLevel → Str
  | .LOW => "🟡".data
  | .MEDIUM => "🟠".data
  | .HIGH => "🔴".data

/-- Model of `JSON.stringify(params, null, 2)` for the string-valued parameter
map of
the model. -/
def jsonStringifyParams (ps : List (Str × Str)) : Str :=
  "\x7b\n".data ++
  List.intercalate ",\n".data
    (ps.map (fun p => "  \"".data ++ p.1 ++ "\": \"".data ++ p.2 ++ "\"".data)) ++
  "\n\x7d".data

def natStr (n : Nat) : Str := (toString n).data

/-- Source function `createSecurityConfirmationMessage` (the mojibake in the
dumped source is
double-encoded UTF-8; the original Spanish text is used here). -/
def createSecurityConfirmationMessage (a : Analysis) (impact : Impact)
    (token : Str) (sql : Option Str) (spName : Option Str)
    (params : Option (List (Str × Str))) : Str :=
  riskEmoji a.riskLevel ++ " OPERACIÓN REQUIERE CONFIRMACIÓN DE SEGURIDAD\n\n".data ++
  "Operación: ".data ++ a.operation ++ "\n".data ++
  "Nivel de Riesgo: ".data ++ a.riskLevel.str ++ "\n".data ++
  "Motivo: ".data ++ a.reason ++ "\n\n".data ++
  (match spName with
   | some sp =>
     "Procedimiento: ".data ++ sp ++ "\n".data ++
     (match params with
      | some ps =>
        if ps.isEmpty then []
        else "Parámetros: ".data ++ jsonStringifyParams ps ++ "\n".data
      | none => [])
   | none => []) ++
  (match sql with
   | some s =>
     "SQL: ".data ++ s.take 200 ++
     (if s.length > 200 then "...".data else []) ++ "\n\n".data
   | none => []) ++
  (if impact.estimatedRows > 0 then
    "Registros estimados afectados: ".data ++ natStr impact.estimatedRows ++
    "\n".data
   else []) ++
  (if impact.affectedTables.isEmpty then []
   else
    "Tablas afectadas: ".data ++
    List.intercalate ", ".data impact.affectedTables ++ "\n".data) ++
  (match impact.warning with
   | some w => "⚠️  Advertencia: ".data ++ w ++ "\n".data
   | none => []) ++
  "\n🔐 PARA CONFIRMAR Y EJECUTAR:\nUse la herramienta: mcp_confirm_and_execute\nCon el token: ".data ++
  token ++
  "\n\n⏰ Este token expira en 5 minutos por seguridad.\n❌ La operación NO se ha ejecutado aún.".data

/-- The error string returned by the gate entry points when confirmation is
required. -/
def confirmationRequiredMsg (confMsg token : Str) : Str :=
  "SECURITY_CONFIRMATION_REQUIRED: ".data ++ confMsg ++
  "\n\nTo proceed, use the mcp_confirm_and_execute tool with token: ".data ++
  token

/-! ### Flag-checking entry points (dataOperations.ts, security.ts version)

These versions consult the feature flags before touching the pool and perform
no audit logging at all; `events` is the (always empty) list of audit records
they append. -/

/-- Output of an entry point that does not touch the pending-operation
store. -/
structure SimpleOut where
  res : ToolRes
  trace : List DbCall
  events : List AuditEvent
deriving DecidableEq

/-- Source function `mcp_execute_query` (flag-checking version,
dataOperations.ts lines
71-90). -/
def mcp_execute_query_v1 (cfg : SecurityConfig) (query : Str) (pool : Pool) :
    SimpleOut :=
  let permission := validateQueryPermission cfg query
  if permission.allowed = false then
    { res := .err (permission.message.getD "Query execution not allowed".data),
      trace := [], events := [] }
  else
    match pool.runQuery query with
    | .ok r => { res := .ok r none, trace := [.q query], events := [] }
    | .error e => { res := .err e, trace := [.q query], events := [] }

/-- Source function `mcp_execute_procedure` (flag-checking version,
dataOperations.ts lines
9-35). -/
def mcp_execute_procedure_v1 (cfg : SecurityConfig) (spName : Str)
    (params : Option (List (Str × Str))) (pool : Pool) : SimpleOut :=
  let permission := validateStoredProcedurePermission cfg spName
  if permission.allowed = false then
    { res := .err
        (permission.message.getD "Stored procedure execution not allowed".data),
      trace := [], events := [] }
  else
    match pool.runExec spName (params.getD []) with
    | .ok r =>
      { res := .ok r none, trace := [.x spName (params.getD [])], events := [] }
    | .error e =>
      { res := .err e, trace := [.x spName (params.getD [])], events := [] }

/-! ### Security-gate entry points (dataOperations.ts, securityUtils version)

These versions never consult the feature flags; write operations go through
the impact estimate / token / confirmation protocol. The token that
`generateConfirmationToken` would mint is injected as an argument, and `now`
stands for every `new Date()` / `Date.now()` taken during the call. -/

/-- Output of a gate entry point: tool result, resulting pending-operation
store, issued database calls in order, and appended audit events in order. -/
structure GateOut where
  res : ToolRes
  store : Store
  trace : List DbCall
  events : List AuditEvent
deriving DecidableEq

/-- Source function `mcp_execute_query` (security-gate version,
dataOperations.ts lines
526-610). A read classification logs SUCCESS before executing, so a throwing
read query leaves both a SUCCESS and a FAILED event; a write classification
estimates impact, stores the pending operation under the token, logs one
CANCELLED event and returns the confirmation-required error. -/
def mcp_execute_query_gate (query : Str) (pool : Pool) (now : Nat)
    (token : Str) (st : Store) : GateOut :=
  let analysis := analyzeQuery query
  if analysis.requiresConfirmation = false then
    let ev := logSecurityEvent
      { timestamp := now, operation := analysis.operation, sql := query,
        riskLevel := analysis.riskLevel.str, userConfirmed := false,
        estimatedRows := none, affectedTables := none,
        result := some .SUCCESS, errorMsg := none }
    match pool.runQuery query with
    | .ok r => { res := .ok r none, store := st, trace := [.q query],
                 events := [ev] }
    | .error e =>
      let ev2 := logSecurityEvent
        { timestamp := now, operation := analysis.operation, sql := query,
          riskLevel := analysis.riskLevel.str, userConfirmed := false,
          estimatedRows := none, affectedTables := none,
          result := some .FAILED, errorMsg := some e }
      { res := .err e, store := st, trace := [.q query], events := [ev, ev2] }
  else
    let impactTrace := estimateImpact query pool
    let impact := impactTrace.1
    let st2 := storePendingOperation now token
      { sql := query, operation := analysis.operation,
        riskLevel := analysis.riskLevel.str, timestamp := 0,
        estimatedRows := impact.estimatedRows,
        affectedTables := impact.affectedTables, spName := none,
        params := none } st
    let ev := logSecurityEvent
      { timestamp := now, operation := analysis.operation, sql := query,
        riskLevel := analysis.riskLevel.str, userConfirmed := false,
        estimatedRows := some impact.estimatedRows,
        affectedTables := some impact.affectedTables,
        result := some .CANCELLED,
        errorMsg := some "Pending user confirmation".data }
    let confMsg := createSecurityConfirmationMessage analysis impact token
      (some query) none none
    { res := .err (confirmationRequiredMsg confMsg token), store := st2,
      trace := impactTrace.2, events := [ev] }

/-- The read-only whitelist test of the gate `mcp_execute_procedure`:
the case-insensitive anchored alternation usp_Get | usp_Select | usp_Search |
usp_Find | usp_List | usp_View. -/
def isReadOnlyProcedure (sp : Str) : Bool :=
  ["usp_Get".data, "usp_Select".data, "usp_Search".data, "usp_Find".data,
   "usp_List".data, "usp_View".data].any
    (fun p => prefixB (upper p) (upper sp))

/-- Source function `mcp_execute_procedure` (security-gate version,
dataOperations.ts lines
382-490). A whitelisted name executes directly (logging SUCCESS after the
call, or FAILED from the catch); any other name stores a MEDIUM pending
operation under the token, logs one CANCELLED event and returns the
confirmation-required error without touching the pool. -/
def mcp_execute_procedure_gate (spName : Str)
    (params : Option (List (Str × Str))) (pool : Pool) (now : Nat)
    (token : Str) (st : Store) : GateOut :=
  if isReadOnlyProcedure spName then
    match pool.runExec spName (params.getD []) with
    | .ok r =>
      let ev := logSecurityEvent
        { timestamp := now, operation := "EXECUTE".data,
          sql := "EXEC ".data ++ spName, riskLevel := "LOW".data,
          userConfirmed := false, estimatedRows := none,
          affectedTables := none, result := some .SUCCESS, errorMsg := none }
      { res := .ok r none, store := st,
        trace := [.x spName (params.getD [])], events := [ev] }
    | .error e =>
      let ev := logSecurityEvent
        { timestamp := now, operation := "EXECUTE".data,
          sql := "EXEC ".data ++ spName, riskLevel := "MEDIUM".data,
          userConfirmed := false, estimatedRows := none,
          affectedTables := none, result := some .FAILED, errorMsg := some e }
      { res := .err e, store := st,
        trace := [.x spName (params.getD [])], events := [ev] }
  else
    let st2 := storePendingOperation now token
      { sql := "EXEC ".data ++ spName, operation := "STORED_PROCEDURE".data,
        riskLevel := "MEDIUM".data, timestamp := 0, estimatedRows := 0,
        affectedTables := ["Unknown - Stored Procedure".data],
        spName := some spName, params := params } st
    let ev := logSecurityEvent
      { timestamp := now, operation := "EXECUTE".data,
        sql := "EXEC ".data ++ spName, riskLevel := "MEDIUM".data,
        userConfirmed := false, estimatedRows := some 0,
        affectedTables := some ["Unknown - Stored Procedure".data],
        result := some .CANCELLED,
        errorMsg := some "Pending user confirmation".data }
    let analysis : Analysis :=
      { requiresConfirmation := true, operation := "EXECUTE".data,
        riskLevel := .MEDIUM,
        reason := "Stored procedure execution may modify data".data }
    let impact : Impact :=
      { estimatedRows := 0,
        affectedTables := ["Unknown - Stored Procedure".data],
        warning := none }
    let sqlShown := "EXEC ".data ++ spName ++
      (match params with
       | some ps =>
         if ps.isEmpty then []
         else " WITH PARAMS: ".data ++ jsonStringifyParams ps
       | none => [])
    let confMsg := createSecurityConfirmationMessage analysis impact token
      (some sqlShown) none none
    { res := .err (confirmationRequiredMsg confMsg token), store := st2,
      trace := [], events := [ev] }

/-- The terminal message of a confirm miss. -/
def expiredTokenMsg : Str :=
  "Invalid or expired confirmation token. Please generate a new analysis.".data

/-- Source function `mcp_confirm_and_execute` (dataOperations.ts lines
888-968). A store miss
(absent or past TTL) returns the invalid-or-expired error without touching
the pool. A hit executes the stored statement or procedure; if that throws,
the catch logs one FAILED event and returns the error with the token STILL
stored (removal only happens after a successful execution). On success the
token is removed, the statement is re-analyzed, its impact re-estimated (a
further pool call), one SUCCESS event is logged and the rows-affected result
returned. -/
def mcp_confirm_and_execute (token : Str) (pool : Pool) (now : Nat)
    (st : Store) : GateOut :=
  match getPendingOperation now token st with
  | (none, st1) =>
    { res := .err expiredTokenMsg, store := st1, trace := [], events := [] }
  | (some op, st1) =>
    let call : DbCall :=
      if op.operation = "STORED_PROCEDURE".data then
        .x (op.spName.getD op.sql) (op.params.getD [])
      else .q op.sql
    let outcome :=
      if op.operation = "STORED_PROCEDURE".data then
        pool.runExec (op.spName.getD op.sql) (op.params.getD [])
      else pool.runQuery op.sql
    match outcome with
    | .error e =>
      let ev := logSecurityEvent
        { timestamp := now, operation := "UNKNOWN".data,
          sql := "FAILED_CONFIRMATION".data, riskLevel := "HIGH".data,
          userConfirmed := true, estimatedRows := none,
          affectedTables := none, result := some .FAILED, errorMsg := some e }
      { res := .err e, store := st1, trace := [call], events := [ev] }
    | .ok r =>
      let st2 := removePendingOperation token st1
      let analysis := analyzeQuery op.sql
      let impactTrace := estimateImpact op.sql pool
      let impact := impactTrace.1
      let ev := logSecurityEvent
        { timestamp := now, operation := analysis.operation, sql := op.sql,
          riskLevel := analysis.riskLevel.str, userConfirmed := true,
          estimatedRows := some impact.estimatedRows,
          affectedTables := some impact.affectedTables,
          result := some .SUCCESS, errorMsg := none }
      let msg := "Operation executed successfully. ".data ++
        natStr r.rowsAffected0 ++ " rows affected.".data
      { res := .ok r (some msg), store := st2,
        trace := [call] ++ impactTrace.2, events := [ev] }

/-! ### Statement-level helpers and concrete fixtures -/

/-- The first whitespace-delimited token of the trimmed upper-cased text (the
leading token the classifier inspects). -/
def firstTok (s : Str) : Str :=
  (upper (trimL s)).takeWhile (fun c => !c.isWhitespace)

/-- Whether the trimmed upper-cased text begins with one of the given
keywords as a string prefix. -/
def startsAny (ops : List Str) (s : Str) : Bool :=
  ops.any (fun op => prefixB op (upper (trimL s)))

/-- Modelled from the spec's words for the C9 whitelist: a case-insensitive
name-prefix whitelist Get/Select/Search/Find/List/View denoting read intent.
Used only to compare the claim's whitelist with the source's
`isReadOnlyProcedure`. -/
def claimReadIntentMatch (sp : Str) : Bool :=
  ["Get".data, "Select".data, "Search".data, "Find".data, "List".data,
   "View".data].any (fun p => prefixB (upper p) (upper sp))

/-- A pool on which every call succeeds. -/
def poolOK : Pool := ⟨fun _ => .ok ⟨5, 3⟩, fun _ _ => .ok ⟨5, 3⟩⟩

/-- A pool on which every call throws. -/
def poolFail : Pool :=
  ⟨fun _ => .error "db down".data, fun _ _ => .error "db down".data⟩

/-- A DELETE statement with leading whitespace: the trimmed text starts with
DELETE but the raw text defeats the anchored DELETE-to-SELECT rewrite. -/
def wsDeleteSql : Str := " DELETE FROM [dbo].[Users]".data

def tokenA : Str := "CONF_AB_CDEF".data

/-- A pending operation as `mcp_execute_query` (gate version) stores it for
`wsDeleteSql`, created at time 0. -/
def wsDeleteOp : PendingOp :=
  { sql := wsDeleteSql, operation := "DELETE".data, riskLevel := "HIGH".data,
    timestamp := 0, estimatedRows := 5, affectedTables := [], spName := none,
    params := none }

/-- A store holding exactly the pending operation under `tokenA`. -/
def storeA : Store := [(tokenA, wsDeleteOp)]

/-- A second leading-whitespace DELETE statement, with a WHERE clause. -/
def wsDelete2 : Str := " DELETE FROM [dbo].[Users] WHERE Active = 1".data

/-- An INSERT statement used as the C10 witness input. -/
def insertSql : Str := "INSERT INTO [dbo].[T] (A) VALUES (1)".data

end MCPQL
namespace MCPQL

theorem prefixB_takeWhile (p : Char → Bool) (l : Str) :
    prefixB (l.takeWhile p) l = true := by
  induction l with
  | nil => rfl
  | cons c r ih =>
    by_cases h : p c
    · simp [List.takeWhile_cons, h, prefixB, ih]
    · simp [List.takeWhile_cons, h, prefixB]

theorem mapGet_mapDelete_self (k : Str) (m : Store) :
    mapGet k (mapDelete k m) = none := by
  induction m with
  | nil => rfl
  | cons hd t ih =>
    by_cases h : hd.1 == k
    · simp only [mapDelete, List.filter, h]
      exact ih
    · rw [show mapDelete k (hd :: t) = hd :: mapDelete k t from by
        simp [mapDelete, List.filter, h]]
      simp only [mapGet, List.find?, h]
      exact ih

theorem mapGet_eq_none_forall (k : Str) (m : Store) (h : mapGet k m = none) :
    ∀ p ∈ m, ¬(p.1 == k) = true := by
  intro p hp
  simp only [mapGet, Option.map_eq_none', List.find?_eq_none] at h
  exact fun hb => h p hp hb

theorem mapGet_store_fresh (now : Nat) (k : Str) (op : PendingOp) (m : Store)
    (h : mapGet k m = none) :
    mapGet k (storePendingOperation now k op m) =
      some { op with timestamp := now } := by
  have hany : m.any (fun p => p.1 == k) = false := by
    simp only [List.any_eq_false]
    intro p hp
    exact mapGet_eq_none_forall k m h p hp
  have hage : ¬((now : Int) - ((now : Nat) : Int) > TOKEN_MAX_AGE) := by omega
  unfold storePendingOperation mapSet
  rw [hany]
  simp only [Bool.false_eq_true, if_false]
  unfold cleanupExpiredTokens
  rw [List.filter_append]
  have h1 : (m.filter (fun p => !decide ((now : Int) - (p.2.timestamp : Int) > TOKEN_MAX_AGE))).find? (fun p => p.1 == k) = none := by
    rw [List.find?_eq_none]
    intro p hp
    have := mapGet_eq_none_forall k m h p (List.mem_of_mem_filter hp)
    simpa using this
  simp [mapGet, List.find?_append, h1, hage]

theorem dedupFoldNodup (g : Str → Str) (l : List Str) :
    ∀ acc : List Str, acc.Nodup →
      (l.foldl (fun acc mm =>
        let tn := g mm
        if tn ∈ acc then acc else acc ++ [tn]) acc).Nodup := by
  induction l with
  | nil => intro acc h; exact h
  | cons hd t ih =>
    intro acc h
    simp only [List.foldl_cons]
    by_cases hm : g hd ∈ acc
    · simpa [hm] using ih acc h
    · have h2 : (acc ++ [g hd]).Nodup := by
        simp [List.nodup_append, h, hm]
      simpa [hm] using ih _ h2

theorem extractAffectedTables_nodup (sql : Str) :
    (extractAffectedTables sql).Nodup := by
  simpa [extractAffectedTables] using
    dedupFoldNodup (fun mm => trimL (stripLeadKw mm)) (tableMatches sql) []
      List.nodup_nil

/-- C4: a stored pending operation is returned by a lookup at time `now`
exactly when `now − creation ≤ 5` minutes; past that the lookup deletes the
entry and reports absence, even though the entry was still physically in the
map. -/
theorem C4_ttl_lookup (st : Store) (tok : Str) (op : PendingOp) (now : Nat)
    (h : mapGet tok st = some op) :
    ((now : Int) - (op.timestamp : Int) ≤ TOKEN_MAX_AGE →
      getPendingOperation now tok st = (some op, st)) ∧
    ((now : Int) - (op.timestamp : Int) > TOKEN_MAX_AGE →
      getPendingOperation now tok st = (none, mapDelete tok st)) := by
  constructor
  · intro hle
    simp only [getPendingOperation, h]
    rw [if_neg (not_lt.mpr hle)]
  · intro hgt
    simp only [getPendingOperation, h]
    rw [if_pos hgt]

/-- C4 witness: at exactly the TTL boundary the entry is returned; one
millisecond later it is deleted and absent. -/
theorem C4_ttl_lookup_witness :
    getPendingOperation 300000 tokenA storeA = (some wsDeleteOp, storeA) ∧
    getPendingOperation 300001 tokenA storeA = (none, mapDelete tokenA storeA) :=
  ⟨(C4_ttl_lookup storeA tokenA wsDeleteOp 300000 rfl).1 (by decide),
   (C4_ttl_lookup storeA tokenA wsDeleteOp 300001 rfl).2 (by decide)⟩

end MCPQL
namespace MCPQL

/-- C2 (code bug evidence): confirming the token of the leading-whitespace
DELETE executes the original statement twice in the single confirm call: once
as the confirmed operation and once again as the "count" query, because the
anchored DELETE-to-SELECT rewrite fails on the raw text. -/
theorem C2_double_execution :
    (mcp_confirm_and_execute tokenA poolOK 1000 storeA).trace =
      [DbCall.q wsDeleteSql, DbCall.q wsDeleteSql] := rfl

/-- C8 (code bug evidence): for a DELETE statement with leading whitespace the
"row-count estimate" query sent to the database is the original mutating
statement itself. -/
theorem C8_executes_original_statement :
    (estimateImpact wsDelete2 poolOK).2 = [DbCall.q wsDelete2] ∧
    prefixB "DELETE".data (upper (trimL wsDelete2)) = true := by
  constructor
  · rfl
  · rfl

/-- C3 counterexample: the token is not invalidated at the fetch. A confirm
whose execution throws leaves the store unchanged, and a later confirm with
the very same token executes the stored operation. -/
theorem C3_counterexample :
    (mcp_confirm_and_execute tokenA poolFail 1000 storeA).store = storeA ∧
    (mcp_confirm_and_execute tokenA poolOK 2000
        (mcp_confirm_and_execute tokenA poolFail 1000 storeA).store).trace ≠
      [] := by
  refine ⟨rfl, ?_⟩
  decide

/-- C3 amended: the token is consumed only by a successful execution. Once a
confirm call with the token succeeds, the token is removed and every later
confirm call with it returns the invalid-or-expired-token error and issues no
database call. -/
theorem C3_amended_consume_on_success (st : Store) (pool : Pool) (now : Nat)
    (tok : Str) (op : PendingOp) (r : QueryRes)
    (hget : getPendingOperation now tok st = (some op, st))
    (hok : (if op.operation = "STORED_PROCEDURE".data then
              pool.runExec (op.spName.getD op.sql) (op.params.getD [])
            else pool.runQuery op.sql) = .ok r) :
    (mcp_confirm_and_execute tok pool now st).store =
      removePendingOperation tok st ∧
    mapGet tok (mcp_confirm_and_execute tok pool now st).store = none ∧
    (∀ (pool2 : Pool) (now2 : Nat),
      (mcp_confirm_and_execute tok pool2 now2
          (mcp_confirm_and_execute tok pool now st).store).trace = [] ∧
      (mcp_confirm_and_execute tok pool2 now2
          (mcp_confirm_and_execute tok pool now st).store).res =
        .err expiredTokenMsg) := by
  have hmain : (mcp_confirm_and_execute tok pool now st).store =
      removePendingOperation tok st := by
    simp only [mcp_confirm_and_execute, hget, hok]
  have hnone : mapGet tok (mcp_confirm_and_execute tok pool now st).store =
      none := by
    rw [hmain]
    exact mapGet_mapDelete_self tok st
  refine ⟨hmain, hnone, ?_⟩
  intro pool2 now2
  set st2 := (mcp_confirm_and_execute tok pool now st).store with hst2
  have hnone2 : mapGet tok st2 = none := hnone
  have hg2 : getPendingOperation now2 tok st2 = (none, st2) := by
    unfold getPendingOperation
    rw [hnone2]
  constructor
  · simp only [mcp_confirm_and_execute, hg2]
  · simp only [mcp_confirm_and_execute, hg2]

/-- C3 amended witness: a concrete successful confirm removes the token and a
later confirm with it is rejected without touching the database. -/
theorem C3_amended_consume_on_success_witness :
    (mcp_confirm_and_execute tokenA poolOK 1000 storeA).store =
      removePendingOperation tokenA storeA ∧
    (mcp_confirm_and_execute tokenA poolFail 5
        (mcp_confirm_and_execute tokenA poolOK 1000 storeA).store).res =
      .err expiredTokenMsg :=
  ⟨(C3_amended_consume_on_success storeA poolOK 1000 tokenA wsDeleteOp
      ⟨5, 3⟩ rfl rfl).1,
   ((C3_amended_consume_on_success storeA poolOK 1000 tokenA wsDeleteOp
      ⟨5, 3⟩ rfl rfl).2.2 poolFail 5).2⟩

end MCPQL
namespace MCPQL

/-- C5 counterexample: WITHDRAW is a leading token recognized by neither
keyword list, yet the classifier marks the statement requiresConfirmation =
false with risk LOW (because the text merely begins with the read keyword
WITH), contradicting the fail-closed HIGH classification the claim states for
unrecognized leading tokens. -/
theorem C5_counterexample :
    (analyzeQueryS "WITHDRAW FUNDS").requiresConfirmation = false ∧
    (analyzeQueryS "WITHDRAW FUNDS").riskLevel = RiskLevel.LOW ∧
    (analyzeQueryS "WITHDRAW FUNDS").operation = "WITHDRAW".data ∧
    "WITHDRAW".data ∉ WRITE_OPERATIONS ∧
    "WITHDRAW".data ∉ READ_OPERATIONS := by
  refine ⟨rfl, rfl, rfl, ?_, ?_⟩ <;> decide

theorem mem_write_of_tok (kw : Str) (s : Str) (hmem : kw ∈ WRITE_OPERATIONS)
    (h : firstTok s = kw) :
    startsAny WRITE_OPERATIONS s = true := by
  have hpre : prefixB kw (upper (trimL s)) = true := by
    rw [← h]
    exact prefixB_takeWhile _ _
  exact List.any_eq_true.mpr ⟨kw, hmem, hpre⟩

set_option maxRecDepth 8192 in
/-- C5 amended: the risk table holds with the write/read category keyed on a
string-prefix test of the trimmed upper-cased text (not on the first token):
first token DELETE/DROP/TRUNCATE/ALTER gives HIGH, UPDATE gives MEDIUM,
INSERT gives LOW (each requiring confirmation); any other statement beginning
with a write keyword requires confirmation at MEDIUM; a statement beginning
with no write keyword but with a read keyword needs no confirmation and is
LOW even when its first token is unrecognized; only a statement beginning
with neither kind of keyword falls to the fail-closed HIGH. -/
theorem C5_amended_risk_table (s : Str) :
    (firstTok s = "DELETE".data ∨ firstTok s = "DROP".data ∨
        firstTok s = "TRUNCATE".data ∨ firstTok s = "ALTER".data →
      (analyzeQuery s).requiresConfirmation = true ∧
      (analyzeQuery s).riskLevel = .HIGH) ∧
    (firstTok s = "UPDATE".data →
      (analyzeQuery s).requiresConfirmation = true ∧
      (analyzeQuery s).riskLevel = .MEDIUM) ∧
    (firstTok s = "INSERT".data →
      (analyzeQuery s).requiresConfirmation = true ∧
      (analyzeQuery s).riskLevel = .LOW) ∧
    (startsAny WRITE_OPERATIONS s = true →
      (analyzeQuery s).requiresConfirmation = true) ∧
    (startsAny WRITE_OPERATIONS s = true →
      firstTok s ≠ "DELETE".data → firstTok s ≠ "DROP".data →
      firstTok s ≠ "TRUNCATE".data → firstTok s ≠ "ALTER".data →
      firstTok s ≠ "UPDATE".data → firstTok s ≠ "INSERT".data →
      (analyzeQuery s).riskLevel = .MEDIUM) ∧
    (startsAny WRITE_OPERATIONS s = false →
      startsAny READ_OPERATIONS s = true →
      (analyzeQuery s).requiresConfirmation = false ∧
      (analyzeQuery s).riskLevel = .LOW) ∧
    (startsAny WRITE_OPERATIONS s = false →
      startsAny READ_OPERATIONS s = false →
      (analyzeQuery s).requiresConfirmation = true ∧
      (analyzeQuery s).riskLevel = .HIGH) := by
  refine ⟨?_, ?_, ?_, ?_, ?_, ?_, ?_⟩
  · rintro (h | h | h | h) <;>
    · have hw := mem_write_of_tok _ s (by decide) h
      simp only [startsAny] at hw
      simp only [firstTok] at h
      simp only [analyzeQuery]
      rw [hw, h]
      exact ⟨rfl, rfl⟩
  · intro h
    have hw := mem_write_of_tok _ s (by decide) h
    simp only [startsAny] at hw
    simp only [firstTok] at h
    simp only [analyzeQuery]
    rw [hw, h]
    exact ⟨rfl, rfl⟩
  · intro h
    have hw := mem_write_of_tok _ s (by decide) h
    simp only [startsAny] at hw
    simp only [firstTok] at h
    simp only [analyzeQuery]
    rw [hw, h]
    exact ⟨rfl, rfl⟩
  · intro hw
    simp only [startsAny] at hw
    simp only [analyzeQuery]
    rw [hw]
    split_ifs <;> first | rfl | tauto
  · intro hw h1 h2 h3 h4 h5 h6
    simp only [startsAny] at hw
    simp only [firstTok] at h1 h2 h3 h4 h5 h6
    simp only [analyzeQuery]
    rw [hw]
    split_ifs <;> first | rfl | tauto
  · intro hw hr
    simp only [startsAny] at hw hr
    simp only [analyzeQuery]
    rw [hw, hr]
    exact ⟨rfl, rfl⟩
  · intro hw hr
    simp only [startsAny] at hw hr
    simp only [analyzeQuery]
    rw [hw, hr]
    exact ⟨rfl, rfl⟩

end MCPQL
namespace MCPQL

/-- C5 amended witness: concrete instances of each populated row of the
table — DELETE is HIGH, a comment-free read is LOW without confirmation, an
unknown leading keyword is fail-closed HIGH, and a token that merely begins
with a write keyword is MEDIUM. -/
theorem C5_amended_risk_table_witness :
    ((analyzeQueryS "DELETE FROM [dbo].[T]").requiresConfirmation = true ∧
      (analyzeQueryS "DELETE FROM [dbo].[T]").riskLevel = RiskLevel.HIGH) ∧
    ((analyzeQueryS "SELECT 1").requiresConfirmation = false ∧
      (analyzeQueryS "SELECT 1").riskLevel = RiskLevel.LOW) ∧
    ((analyzeQueryS "GRANT ALL TO PUBLIC").requiresConfirmation = true ∧
      (analyzeQueryS "GRANT ALL TO PUBLIC").riskLevel = RiskLevel.HIGH) ∧
    (analyzeQueryS "DELETED FROM LOG").riskLevel = RiskLevel.MEDIUM :=
  ⟨(C5_amended_risk_table "DELETE FROM [dbo].[T]".data).1 (Or.inl (by decide)),
   (C5_amended_risk_table "SELECT 1".data).2.2.2.2.2.1 (by decide) (by decide),
   (C5_amended_risk_table "GRANT ALL TO PUBLIC".data).2.2.2.2.2.2 (by decide)
     (by decide),
   (C5_amended_risk_table "DELETED FROM LOG".data).2.2.2.2.1 (by decide)
     (by decide) (by decide) (by decide) (by decide) (by decide) (by decide)⟩

/-- C6 counterexample: prepending a SQL comment changes the classification of
a SELECT from no-confirmation LOW to fail-closed HIGH, so `analyzeQuery` does
not strip comments before classifying. -/
theorem C6_counterexample :
    (analyzeQueryS "-- note\nSELECT 1").requiresConfirmation = true ∧
    (analyzeQueryS "-- note\nSELECT 1").riskLevel = RiskLevel.HIGH ∧
    (analyzeQueryS "SELECT 1").requiresConfirmation = false ∧
    (analyzeQueryS "SELECT 1").riskLevel = RiskLevel.LOW :=
  ⟨rfl, rfl, rfl, rfl⟩

/-- C6 amended: `analyzeQuery` normalizes only by trimming and upper-casing;
comments are never stripped, so every statement whose trimmed text begins
with a line comment is classified by the fail-closed unknown branch (HIGH,
confirmation required) regardless of what follows the comment. -/
theorem C6_amended_comment_fail_closed (s : Str)
    (h : prefixB "--".data (trimL s) = true) :
    (analyzeQuery s).requiresConfirmation = true ∧
    (analyzeQuery s).riskLevel = RiskLevel.HIGH := by
  obtain ⟨t, ht⟩ : ∃ t, trimL s = '-' :: '-' :: t := by
    match htl : trimL s with
    | [] => rw [htl] at h; exact absurd h (by decide)
    | [a] =>
      rw [htl] at h
      simp only [prefixB, Bool.and_eq_true, beq_iff_eq] at h
      exact absurd h.2 (by decide)
    | a :: b :: t =>
      rw [htl] at h
      simp only [prefixB, Bool.and_eq_true, beq_iff_eq] at h
      exact ⟨t, by rw [← h.1, ← h.2.1]⟩
  simp only [analyzeQuery]
  rw [ht]
  exact ⟨rfl, rfl⟩

/-- C6 amended witness: a comment-prefixed DROP is classified HIGH with
confirmation required by the unknown branch. -/
theorem C6_amended_comment_fail_closed_witness :
    (analyzeQueryS "-- cleanup\nDROP TABLE T").requiresConfirmation = true ∧
    (analyzeQueryS "-- cleanup\nDROP TABLE T").riskLevel = RiskLevel.HIGH :=
  C6_amended_comment_fail_closed "-- cleanup\nDROP TABLE T".data (by decide)

end MCPQL
namespace MCPQL

/-- C10: for a statement whose trimmed upper-cased text begins with neither
DELETE nor UPDATE, the impact estimator sends no query at all, reports zero
estimated rows and no warning, and still returns the textually extracted
table list — which is duplicate-free. -/
theorem C10_no_estimate_for_other_statements (sql : Str) (pool : Pool)
    (h1 : prefixB "DELETE".data (upper (trimL sql)) = false)
    (h2 : prefixB "UPDATE".data (upper (trimL sql)) = false) :
    estimateImpact sql pool =
      ({ estimatedRows := 0, affectedTables := extractAffectedTables sql,
         warning := none }, []) ∧
    (extractAffectedTables sql).Nodup := by
  constructor
  · simp only [estimateImpact]
    rw [h1, h2]
    rfl
  · exact extractAffectedTables_nodup sql

/-- C10 witness: a concrete INSERT issues no query, and its extracted table
list is exactly the deduplicated INTO target. -/
theorem C10_no_estimate_witness :
    estimateImpact insertSql poolOK =
      ({ estimatedRows := 0, affectedTables := extractAffectedTables insertSql,
         warning := none }, []) ∧
    (extractAffectedTables insertSql).Nodup :=
  C10_no_estimate_for_other_statements insertSql poolOK (by decide) (by decide)

/-- C7 counterexample: with modifications disabled, the flag-checking
`mcp_execute_query` blocks a DELETE proposal but appends no audit event at
all, not one CANCELLED event. -/
theorem C7_counterexample :
    (mcp_execute_query_v1 ⟨false, false⟩ "DELETE FROM [dbo].[T]".data
        poolOK).res.isErr = true ∧
    (mcp_execute_query_v1 ⟨false, false⟩ "DELETE FROM [dbo].[T]".data
        poolOK).events = [] := by
  exact ⟨rfl, rfl⟩

/-- C7 amended: the flag-checking entry point appends no audit event on any
path (in particular a flag-blocked proposal logs nothing); in the gate
version, a proposal requiring confirmation appends exactly one CANCELLED
event carrying the error "Pending user confirmation", a confirmed execution
that succeeds appends exactly one SUCCESS event, and one that throws appends
exactly one FAILED event. -/
theorem C7_amended_audit_events
    (cfg : SecurityConfig) (q1 : Str) (pool1 : Pool)
    (q2 : Str) (pool2 : Pool) (now2 : Nat) (tok2 : Str) (stq : Store)
    (st3 : Store) (pool3 : Pool) (now3 : Nat) (tok3 : Str) (op3 : PendingOp)
    (r3 : QueryRes)
    (st4 : Store) (pool4 : Pool) (now4 : Nat) (tok4 : Str) (op4 : PendingOp)
    (e4 : Str)
    (hq2 : (analyzeQuery q2).requiresConfirmation = true)
    (hget3 : getPendingOperation now3 tok3 st3 = (some op3, st3))
    (hok3 : (if op3.operation = "STORED_PROCEDURE".data then
              pool3.runExec (op3.spName.getD op3.sql) (op3.params.getD [])
            else pool3.runQuery op3.sql) = .ok r3)
    (hget4 : getPendingOperation now4 tok4 st4 = (some op4, st4))
    (herr4 : (if op4.operation = "STORED_PROCEDURE".data then
              pool4.runExec (op4.spName.getD op4.sql) (op4.params.getD [])
            else pool4.runQuery op4.sql) = .error e4) :
    (mcp_execute_query_v1 cfg q1 pool1).events = [] ∧
    ((mcp_execute_query_gate q2 pool2 now2 tok2 stq).events.map
        (fun e => (e.result, e.errorMsg)) =
      [(some .CANCELLED, some "Pending user confirmation".data)]) ∧
    ((mcp_confirm_and_execute tok3 pool3 now3 st3).events.map
        (fun e => e.result) = [some .SUCCESS]) ∧
    ((mcp_confirm_and_execute tok4 pool4 now4 st4).events.map
        (fun e => e.result) = [some .FAILED]) := by
  refine ⟨?_, ?_, ?_, ?_⟩
  · simp only [mcp_execute_query_v1]
    split
    · rfl
    · split <;> rfl
  · simp only [mcp_execute_query_gate]
    rw [hq2]
    simp [logSecurityEvent]
  · simp only [mcp_confirm_and_execute, hget3, hok3]
    simp [logSecurityEvent]
  · simp only [mcp_confirm_and_execute, hget4, herr4]
    simp [logSecurityEvent]

/-- C7 amended witness: the concrete blocked DELETE logs nothing, the gated
DELETE proposal logs one CANCELLED pending-confirmation event, and concrete
successful and failing confirmations log one SUCCESS and one FAILED event. -/
theorem C7_amended_audit_events_witness :
    (mcp_execute_query_v1 ⟨false, false⟩ "DELETE FROM [dbo].[T]".data
        poolOK).events = [] ∧
    ((mcp_execute_query_gate "DELETE FROM [dbo].[T] WHERE ID = 1".data poolOK
        0 tokenA []).events.map (fun e => (e.result, e.errorMsg)) =
      [(some .CANCELLED, some "Pending user confirmation".data)]) ∧
    ((mcp_confirm_and_execute tokenA poolOK 1000 storeA).events.map
        (fun e => e.result) = [some .SUCCESS]) ∧
    ((mcp_confirm_and_execute tokenA poolFail 1000 storeA).events.map
        (fun e => e.result) = [some .FAILED]) :=
  C7_amended_audit_events ⟨false, false⟩ "DELETE FROM [dbo].[T]".data poolOK
    "DELETE FROM [dbo].[T] WHERE ID = 1".data poolOK 0 tokenA []
    storeA poolOK 1000 tokenA wsDeleteOp ⟨5, 3⟩
    storeA poolFail 1000 tokenA wsDeleteOp "db down".data
    (by decide) rfl rfl rfl rfl

end MCPQL
namespace MCPQL

/-- C1 counterexample: the security-gate `mcp_execute_query` consults no
feature flag; proposing a DELETE (with modifications disabled in the
environment) does not return a flag-blocked result — it answers
confirmation-required and invokes the database handle for the row-count
estimate. -/
theorem C1_counterexample :
    (mcp_execute_query_gate "DELETE FROM [dbo].[T] WHERE ID = 1".data poolOK 0
        tokenA []).trace ≠ [] ∧
    (mcp_execute_query_gate "DELETE FROM [dbo].[T] WHERE ID = 1".data poolOK 0
        tokenA []).res.isErr = true := by
  constructor
  · decide
  · rfl

/-- C1 amended: the flag-checking entry points do satisfy the claim — with
the governing flag false, a query containing a modification operation and any
stored-procedure call are answered by a blocked error whose text names the
flag assignment to enable, and the database handle is never invoked. The
security-gate versions check no flag (see the counterexample). -/
theorem C1_amended_blocked_no_db (cfg : SecurityConfig) (q sp : Str)
    (params : Option (List (Str × Str))) (pool pool2 : Pool)
    (hm : cfg.ALLOW_MODIFICATIONS = false)
    (hs : cfg.ALLOW_STORED_PROCEDURES = false)
    (hq : containsModificationOperations q = true) :
    ((mcp_execute_query_v1 cfg q pool).trace = [] ∧
     (mcp_execute_query_v1 cfg q pool).events = [] ∧
     ∃ a b, (mcp_execute_query_v1 cfg q pool).res =
       .err (a ++ "DB_ALLOW_MODIFICATIONS=true".data ++ b)) ∧
    ((mcp_execute_procedure_v1 cfg sp params pool2).trace = [] ∧
     (mcp_execute_procedure_v1 cfg sp params pool2).events = [] ∧
     ∃ a b, (mcp_execute_procedure_v1 cfg sp params pool2).res =
       .err (a ++ "DB_ALLOW_STORED_PROCEDURES=true".data ++ b)) := by
  have hne : ¬(q = []) := by
    intro he
    rw [he] at hq
    exact absurd hq (by decide)
  have hperm : validateQueryPermission cfg q =
      { allowed := false,
        message := some (modBlockedMsg cfg
          ("SQL Query: ".data ++ q.take 100 ++ "...".data)) } := by
    simp only [validateQueryPermission, hne, hq, if_false, if_true,
      validateModificationPermission, hm]
    try rfl
  have hperm2 : validateStoredProcedurePermission cfg sp =
      { allowed := false, message := some (spBlockedMsg cfg sp) } := by
    simp only [validateStoredProcedurePermission, hs]
    try rfl
  constructor
  · refine ⟨?_, ?_, ?_⟩
    · simp [mcp_execute_query_v1, hperm]
    · simp [mcp_execute_query_v1, hperm]
    · refine ⟨modBlockedMsgPre ("SQL Query: ".data ++ q.take 100 ++ "...".data),
        modBlockedMsgPost cfg, ?_⟩
      simp [mcp_execute_query_v1, hperm, modBlockedMsg]
  · refine ⟨?_, ?_, ?_⟩
    · simp [mcp_execute_procedure_v1, hperm2]
    · simp [mcp_execute_procedure_v1, hperm2]
    · refine ⟨spBlockedMsgPre sp, spBlockedMsgPost cfg, ?_⟩
      simp [mcp_execute_procedure_v1, hperm2, spBlockedMsg]

/-- C1 amended witness: with both flags disabled, a concrete DELETE query and
a concrete procedure call are blocked without any database call, with the
flag assignment in the message. -/
theorem C1_amended_blocked_no_db_witness :
    ((mcp_execute_query_v1 ⟨false, false⟩ "DELETE FROM [dbo].[T]".data
        poolOK).trace = [] ∧
     (mcp_execute_query_v1 ⟨false, false⟩ "DELETE FROM [dbo].[T]".data
        poolOK).events = [] ∧
     ∃ a b, (mcp_execute_query_v1 ⟨false, false⟩ "DELETE FROM [dbo].[T]".data
        poolOK).res = .err (a ++ "DB_ALLOW_MODIFICATIONS=true".data ++ b)) ∧
    ((mcp_execute_procedure_v1 ⟨false, false⟩ "usp_DeleteUser".data none
        poolOK).trace = [] ∧
     (mcp_execute_procedure_v1 ⟨false, false⟩ "usp_DeleteUser".data none
        poolOK).events = [] ∧
     ∃ a b, (mcp_execute_procedure_v1 ⟨false, false⟩ "usp_DeleteUser".data
        none poolOK).res =
       .err (a ++ "DB_ALLOW_STORED_PROCEDURES=true".data ++ b)) :=
  C1_amended_blocked_no_db ⟨false, false⟩ "DELETE FROM [dbo].[T]".data
    "usp_DeleteUser".data none poolOK poolOK rfl rfl (by decide)

/-- C9 counterexample: GetUsers matches the claim's read-intent whitelist
(prefix Get), yet the gate requires confirmation for it — the code's
whitelist is anchored on the usp_ prefixes, so the claim's
"bypasses confirmation exactly when Get/Select/... matches" is false. -/
theorem C9_counterexample :
    claimReadIntentMatch "GetUsers".data = true ∧
    isReadOnlyProcedure "GetUsers".data = false ∧
    (mcp_execute_procedure_gate "GetUsers".data none poolOK 0 tokenA
        []).res.isErr = true ∧
    (mcp_execute_procedure_gate "GetUsers".data none poolOK 0 tokenA
        []).trace = [] :=
  ⟨rfl, rfl, rfl, rfl⟩

/-- C9 amended: the bypass holds exactly for the case-insensitive prefixes
usp_Get/usp_Select/usp_Search/usp_Find/usp_List/usp_View: such names execute
directly; every other name leads to a MEDIUM pending operation stored under
the (fresh) token, a confirmation-required error, and no database call. The
decision is a function of the name alone — the procedure body is never
consulted. -/
theorem C9_amended_whitelist (sp : Str) (params : Option (List (Str × Str)))
    (pool : Pool) (now : Nat) (tok : Str) (st : Store)
    (hfresh : mapGet tok st = none) :
    (isReadOnlyProcedure sp = true →
      (mcp_execute_procedure_gate sp params pool now tok st).trace =
        [DbCall.x sp (params.getD [])] ∧
      (mcp_execute_procedure_gate sp params pool now tok st).store = st) ∧
    (isReadOnlyProcedure sp = false →
      (mcp_execute_procedure_gate sp params pool now tok st).res.isErr =
        true ∧
      (mcp_execute_procedure_gate sp params pool now tok st).trace = [] ∧
      mapGet tok (mcp_execute_procedure_gate sp params pool now tok st).store
        = some
          { sql := "EXEC ".data ++ sp,
            operation := "STORED_PROCEDURE".data,
            riskLevel := "MEDIUM".data, timestamp := now, estimatedRows := 0,
            affectedTables := ["Unknown - Stored Procedure".data],
            spName := some sp, params := params }) := by
  constructor
  · intro h
    cases hrun : pool.runExec sp (params.getD []) with
    | ok r =>
      simp [mcp_execute_procedure_gate, h, hrun]
    | error e =>
      simp [mcp_execute_procedure_gate, h, hrun]
  · intro h
    refine ⟨?_, ?_, ?_⟩
    · simp [mcp_execute_procedure_gate, h, ToolRes.isErr]
    · simp [mcp_execute_procedure_gate, h]
    · have hstore :
          (mcp_execute_procedure_gate sp params pool now tok st).store =
          storePendingOperation now tok
            { sql := "EXEC ".data ++ sp,
              operation := "STORED_PROCEDURE".data,
              riskLevel := "MEDIUM".data, timestamp := 0, estimatedRows := 0,
              affectedTables := ["Unknown - Stored Procedure".data],
              spName := some sp, params := params } st := by
        simp [mcp_execute_procedure_gate, h]
      rw [hstore]
      exact mapGet_store_fresh now tok _ st hfresh

/-- C9 amended witness: a concrete usp_Get procedure runs directly; a concrete
non-whitelisted name is stored MEDIUM under the fresh token with no database
call. -/
theorem C9_amended_whitelist_witness :
    ((mcp_execute_procedure_gate "usp_GetUsers".data none poolOK 7 tokenA
        []).trace = [DbCall.x "usp_GetUsers".data []] ∧
     (mcp_execute_procedure_gate "usp_GetUsers".data none poolOK 7 tokenA
        []).store = []) ∧
    ((mcp_execute_procedure_gate "UpdateBalance".data none poolOK 7 tokenA
        []).trace = [] ∧
     mapGet tokenA (mcp_execute_procedure_gate "UpdateBalance".data none
        poolOK 7 tokenA []).store =
       some
         { sql := "EXEC UpdateBalance".data,
           operation := "STORED_PROCEDURE".data,
           riskLevel := "MEDIUM".data, timestamp := 7, estimatedRows := 0,
           affectedTables := ["Unknown - Stored Procedure".data],
           spName := some "UpdateBalance".data, params := none }) :=
  ⟨(C9_amended_whitelist "usp_GetUsers".data none poolOK 7 tokenA [] rfl).1
      (by decide),
   ⟨((C9_amended_whitelist "UpdateBalance".data none poolOK 7 tokenA []
        rfl).2 (by decide)).2.1,
    ((C9_amended_whitelist "UpdateBalance".data none poolOK 7 tokenA []
        rfl).2 (by decide)).2.2⟩⟩

end MCPQL
